import Mathlib

/-!
Verification development for the rmw_zenoh transport-binding core
(`attachment_helpers.cpp`, `zenoh_router_check.cpp`, `rmw_context_impl_s.cpp`).

The C++ sources are shallowly embedded: attachments become ordered lists of
(key, value-bytes) pairs, `strtol` becomes an explicit base-10 parser over
byte lists with an ERANGE flag, and the stateful context lifecycle becomes
explicit state passing over a `ContextData` record together with a log of the
resource-release / callback actions each operation performs.
-/

set_option autoImplicit false

namespace RmwZenoh

/-- Value bytes of an attachment entry, each byte a `Nat` (< 256 in practice). -/
abbrev Bytes := List Nat

/-! ## Attachment codec (`attachment_helpers.cpp`) -/

/-- The scan loop of `get_attachment`: iterate pairs in producer order,
deserialize each key and compare it with the lookup key (`strcmp`); on the
first match deserialize the value and stop (`found` + `break`).  Keys are
modelled as text (the wire format declares them UTF-8 text); values stay raw
bytes. -/
def attachment_scan : List (String × Bytes) → String → Option Bytes
  | [], _ => none
  | (k, v) :: rest, key => if k = key then some v else attachment_scan rest key

/-- `get_attachment` (attachment_helpers.cpp:28-74): empty attachment fails
immediately (`z_bytes_is_empty`), otherwise run the scan loop.  The
deserialize-to-string step is total in the model (values are kept as raw
bytes), so the final `z_string_check` always passes. -/
def get_attachment (att : List (String × Bytes)) (key : String) : Option Bytes :=
  if att.isEmpty then none else attachment_scan att key

/-- `RMW_GID_STORAGE_SIZE` for this RMW implementation: 16 bytes. -/
def RMW_GID_STORAGE_SIZE : Nat := 16

/-- `get_gid_from_attachment` (attachment_helpers.cpp:76-95): look up
`"source_gid"`; fail unless the value length is exactly 16; on success the 16
bytes are copied out (`memcpy`), modelled by returning them. -/
def get_gid_from_attachment (att : List (String × Bytes)) : Option Bytes :=
  match get_attachment att "source_gid" with
  | none => none
  | some v => if v.length = RMW_GID_STORAGE_SIZE then some v else none

/-- Byte is one of the `isspace` characters `strtol` skips: space or 0x09-0x0d. -/
def isSpaceByte (c : Nat) : Bool := c = 32 || (9 ≤ c && c ≤ 13)

/-- Byte is an ASCII decimal digit. -/
def isDigitByte (c : Nat) : Bool := 48 ≤ c && c ≤ 57

/-- Numeric value of a big-endian list of ASCII digit bytes. -/
def digitsVal (ds : List Nat) : Nat := ds.foldl (fun a c => a * 10 + (c - 48)) 0

/-- `INT64_MAX` = `LONG_MAX` on LP64. -/
def INT64_MAX : Int := 2 ^ 63 - 1

/-- `INT64_MIN` = `LONG_MIN` on LP64. -/
def INT64_MIN : Int := -(2 ^ 63)

/-- Result of `strtol(s, &endptr, 10)` together with `errno`: the returned
number, the offset `endptr - s`, and whether `ERANGE` was set. -/
structure StrtolResult where
  num : Int
  endPos : Nat
  erange : Bool
deriving DecidableEq

/-- `strtol` with base 10 on a NUL-free byte string: skip leading whitespace,
an optional single sign, then the longest run of decimal digits.  No digits
means result 0 with `endptr` left at the start.  Out-of-range values clamp to
`LONG_MAX`/`LONG_MIN` and set `ERANGE`. -/
def strtol10 (s : List Nat) : StrtolResult :=
  let wsCount := (s.takeWhile isSpaceByte).length
  let afterWs := s.drop wsCount
  let signCount : Nat :=
    match afterWs with
    | c :: _ => if c = 45 || c = 43 then 1 else 0
    | [] => 0
  let neg : Bool :=
    match afterWs with
    | c :: _ => c = 45
    | [] => false
  let digits := (afterWs.drop signCount).takeWhile isDigitByte
  if digits.isEmpty then ⟨0, 0, false⟩
  else
    let v : Int := if neg then -(digitsVal digits : Int) else (digitsVal digits : Int)
    let endPos := wsCount + signCount + digits.length
    if v > INT64_MAX then ⟨INT64_MAX, endPos, true⟩
    else if v < INT64_MIN then ⟨INT64_MIN, endPos, true⟩
    else ⟨v, endPos, false⟩

/-- The C string actually seen by `strtol`: `int64_str` holds the value bytes
followed by a NUL, so parsing (and the junk check) see only the bytes up to
the first embedded NUL. -/
def cstrBytes (v : Bytes) : Bytes := v.takeWhile (fun c => c ≠ 0)

/-- Body of `get_int64_from_attachment` after a successful lookup
(attachment_helpers.cpp:110-145): length gates `[1, 19]`, then `strtol`
followed by the checks in source order: `num == 0`, `endptr == int64_str`
(no conversion), `*endptr != '\0'` (junk after the number, equivalent to the
end position falling short of the C-string length), `errno != 0`. -/
def int64Body (v : Bytes) : Int :=
  if v.length < 1 then -1
  else if v.length > 19 then -1
  else
    let r := strtol10 (cstrBytes v)
    if r.num = 0 then -1
    else if r.endPos = 0 then -1
    else if r.endPos < (cstrBytes v).length then -1
    else if r.erange then -1
    else r.num

/-- `get_int64_from_attachment` (attachment_helpers.cpp:97-146): sentinel `-1`
for an empty attachment, a failed lookup, or any parse failure; otherwise the
parsed value. -/
def get_int64_from_attachment (att : List (String × Bytes)) (name : String) : Int :=
  if att.isEmpty then -1
  else
    match get_attachment att name with
    | none => -1
    | some v => int64Body v

/-! ## Canonical decimal text (spec-side, for the round-trip claim) -/

/-- Big-endian ASCII digits of `n`, accumulated onto `acc`; `fuel` bounds the
recursion (`fuel ≥ n` suffices since `n / 10` shrinks). Structural recursion
keeps it kernel-evaluable. -/
def natDecAuxF : Nat → Nat → List Nat → List Nat
  | 0, _, acc => acc
  | fuel + 1, n, acc => if n = 0 then acc else natDecAuxF fuel (n / 10) ((n % 10 + 48) :: acc)

/-- Ten to the number of digits `natDecAuxF` emits for `n` (same recursion
shape, used to state the fold lemma for the round-trip proof). -/
def tenPowF : Nat → Nat → Nat
  | 0, _ => 1
  | fuel + 1, n => if n = 0 then 1 else 10 * tenPowF fuel (n / 10)

/-- Canonical decimal digit bytes of a natural number. -/
def natDecText (n : Nat) : List Nat := if n = 0 then [48] else natDecAuxF n n []

/-- Modelled from the spec: the canonical decimal text of a signed integer,
including any minus sign (byte 45). -/
def intDecText (n : Int) : List Nat :=
  if n < 0 then 45 :: natDecText n.natAbs else natDecText n.natAbs

/-! ## Router connectivity probe (`zenoh_router_check.cpp`) -/

/-- RMW return codes used by this core. -/
inductive RmwRet
  | Ok
  | Error
deriving DecidableEq

/-- Two-character lowercase hex digit for a nibble (`std::hex` lowercase). -/
def byteHexDigit (n : Nat) : Nat := if n < 10 then 48 + n else 87 + n

/-- One budget byte rendered as exactly two lowercase hex digit bytes
(`std::setfill('0') << std::setw(2) << std::hex`). -/
def byteHex (b : Nat) : List Nat := [byteHexDigit (b / 16), byteHexDigit (b % 16)]

/-- Render each byte of `l` in order as two hex digits, concatenated. -/
def hexRender (l : List Nat) : List Nat := l.foldr (fun b acc => byteHex b ++ acc) []

/-- The `len` loop of `ZidToStr` (zenoh_router_check.cpp:33-38): walk the id
bytes with index `i`; whenever `id[i]` is nonzero set `len = i + 1`. -/
def zidLenAux : List Nat → Nat → Nat → Nat
  | [], _, len => len
  | b :: rest, i, len => zidLenAux rest (i + 1) (if b ≠ 0 then i + 1 else len)

/-- Index one past the last nonzero byte of the identity (0 when all zero). -/
def zidLen (id : List Nat) : Nat := zidLenAux id 0 0

/-- `ZidToStr` (zenoh_router_check.cpp:30-47): an all-zero id renders empty;
otherwise bytes `len - 1` down to `0` are each rendered as two lowercase hex
digits.  Characters are modelled as their ASCII codes. -/
def ZidToStr (id : List Nat) : List Nat :=
  let len := zidLen id
  if len = 0 then []
  else hexRender (((List.range len).reverse).map (fun i => id.getD i 0))

/-- The reply counter of `zenoh_router_check`: the callback increments the
malloc'd `int` once per identity reply; replies are delivered sequentially, so
the final counter is a fold over the reply list. -/
def routerCheckCount (replies : List (List Nat)) : Nat :=
  replies.foldl (fun c _ => c + 1) 0

/-- `zenoh_router_check` (zenoh_router_check.cpp:51-88): issue the one-shot
`z_info_routers_zid` query (modelled by the list of identity replies the
transport delivers), then succeed iff the counter is nonzero. -/
def zenoh_router_check (replies : List (List Nat)) : RmwRet :=
  if routerCheckCount replies = 0 then RmwRet.Error else RmwRet.Ok

/-! ## Context lifecycle (`rmw_context_impl_s.cpp`) -/

/-- The two graph-cache verbs this core issues. -/
inductive GraphEvent
  | parsePut (s : String)
  | parseDel (s : String)
deriving DecidableEq

/-- `rmw_context_impl_s::Data`: the mutex-guarded shared state.  Owned zenoh
resources are tracked as liveness booleans; the graph cache is tracked as the
log of verbs it has received; `guard_triggers` counts successful guard
condition triggers. -/
structure ContextData where
  is_shutdown : Bool
  is_initialized : Bool
  subscriber_declared : Bool
  shm_has_value : Bool
  graph_cache : List GraphEvent
  guard_triggers : Nat
  next_entity_id : Nat
deriving DecidableEq

/-- Resource-release actions `shutdown` can perform, in order. -/
inductive ReleaseAction
  | undeclareSubscriber
  | dropShm
  | closeSession
deriving DecidableEq

/-- `rmw_context_impl_s::Data::shutdown` (rmw_context_impl_s.cpp:147-165):
under the lock, an already-shut-down context returns `Ok` at once with no
release actions.  Otherwise undeclare the graph subscriber, drop the SHM
provider if present, then attempt `z_close`; `closeOk` says whether the close
succeeds.  On close failure the error is returned and `is_shutdown` is NOT
set; on success `is_shutdown := true`.  The returned list logs the release
actions performed by this call. -/
def ContextData.shutdown (closeOk : Bool) (d : ContextData) :
    RmwRet × ContextData × List ReleaseAction :=
  if d.is_shutdown then (RmwRet.Ok, d, [])
  else
    let acts := [ReleaseAction.undeclareSubscriber]
      ++ (if d.shm_has_value then [ReleaseAction.dropShm] else [])
      ++ [ReleaseAction.closeSession]
    let d1 := { d with subscriber_declared := false, shm_has_value := false }
    if closeOk then (RmwRet.Ok, { d1 with is_shutdown := true }, acts)
    else (RmwRet.Error, d1, acts)

/-- `rmw_context_impl_s::Data::~Data` (rmw_context_impl_s.cpp:168-172): call
`shutdown` and discard its return value. -/
def ContextData.destructor (closeOk : Bool) (d : ContextData) :
    ContextData × List ReleaseAction :=
  ((ContextData.shutdown closeOk d).2.1, (ContextData.shutdown closeOk d).2.2)

/-- Sample kinds dispatched by the discovery callback. -/
inductive SampleKind
  | put
  | del
  | other
deriving DecidableEq

/-- Externally observable calls made by `graph_sub_data_handler`. -/
inductive HandlerAction
  | parsePutCall (s : String)
  | parseDelCall (s : String)
  | triggerGuardCall
deriving DecidableEq

/-- `rmw_context_impl_s::graph_sub_data_handler` (rmw_context_impl_s.cpp:39-78):
a null `data` pointer returns after logging; under the lock, a shut-down
context returns immediately; otherwise a put/delete sample feeds
`parse_put`/`parse_del` to the graph cache (other kinds return) and the graph
guard condition is triggered (`triggerOk` says whether that call succeeds; a
failure is only logged).  Returns the updated state and the calls made. -/
def graph_sub_data_handler (keyexpr : String) (kind : SampleKind)
    (dataPtr : Option ContextData) (triggerOk : Bool) :
    Option ContextData × List HandlerAction :=
  match dataPtr with
  | none => (none, [])
  | some d =>
    if d.is_shutdown then (some d, [])
    else
      match kind with
      | SampleKind.put =>
        let d1 := { d with graph_cache := d.graph_cache ++ [GraphEvent.parsePut keyexpr] }
        let d2 := if triggerOk then { d1 with guard_triggers := d1.guard_triggers + 1 } else d1
        (some d2, [HandlerAction.parsePutCall keyexpr, HandlerAction.triggerGuardCall])
      | SampleKind.del =>
        let d1 := { d with graph_cache := d.graph_cache ++ [GraphEvent.parseDel keyexpr] }
        let d2 := if triggerOk then { d1 with guard_triggers := d1.guard_triggers + 1 } else d1
        (some d2, [HandlerAction.parseDelCall keyexpr, HandlerAction.triggerGuardCall])
      | SampleKind.other => (some d, [])

/-- Subscription-declaration actions of `subscribe_to_ros_graph`. -/
inductive GraphSubAction
  | declareSub
  | undeclareSub
deriving DecidableEq

/-- `rmw_context_impl_s::Data::subscribe_to_ros_graph`
(rmw_context_impl_s.cpp:102-144): under the lock, an already-initialized
context returns `Ok` at once without touching anything.  Otherwise the
liveliness subscriber is declared (`declareOk` says whether that succeeds);
on failure the scope-exit undeclares it and `Error` is returned; on success
the scope-exit is cancelled and `is_initialized := true`. -/
def ContextData.subscribe_to_ros_graph (declareOk : Bool) (d : ContextData) :
    RmwRet × ContextData × List GraphSubAction :=
  if d.is_initialized then (RmwRet.Ok, d, [])
  else if declareOk then
    (RmwRet.Ok, { d with is_initialized := true, subscriber_declared := true },
      [GraphSubAction.declareSub])
  else
    (RmwRet.Error, d, [GraphSubAction.declareSub, GraphSubAction.undeclareSub])

/-- A fresh `Data` as built by the constructor (rmw_context_impl_s.cpp:81-99). -/
def ContextData.fresh (shm : Bool) : ContextData :=
  { is_shutdown := false
    is_initialized := false
    subscriber_declared := false
    shm_has_value := shm
    graph_cache := []
    guard_triggers := 0
    next_entity_id := 0 }

/-! ## Sanity checks on concrete inputs -/

example : intDecText 120 = [49, 50, 48] := by decide
example : intDecText (-9) = [45, 57] := by decide
example : intDecText 0 = [48] := by decide
example : get_attachment [("a", [1]), ("k", [2]), ("k", [3])] "k" = some [2] := by decide
example : get_gid_from_attachment [("source_gid", List.replicate 16 171)] =
    some (List.replicate 16 171) := by decide
example : get_gid_from_attachment [("source_gid", List.replicate 8 171)] = none := by decide
example : get_int64_from_attachment [("seq", intDecText 120)] "seq" = 120 := by decide
example : get_int64_from_attachment [("seq", intDecText (-42))] "seq" = -42 := by decide
example : get_int64_from_attachment [("seq", [48])] "seq" = -1 := by decide
example : get_int64_from_attachment [("seq", [49, 50, 120])] "seq" = -1 := by decide
example : get_int64_from_attachment
    [("seq", [57, 50, 50, 51, 51, 55, 50, 48, 51, 54, 56, 53, 52, 55, 55, 53, 56, 48, 55, 48])]
    "seq" = -1 := by decide
example : zenoh_router_check [] = RmwRet.Error := by decide
example : zenoh_router_check [[1], [2]] = RmwRet.Ok := by decide
example : ZidToStr (1 :: 171 :: List.replicate 14 0) = [97, 98, 48, 49] := by decide
example : ZidToStr (List.replicate 16 0) = [] := by decide
example : ZidToStr (0 :: 2 :: 0 :: 255 :: List.replicate 12 0) =
    [102, 102, 48, 48, 48, 50, 48, 48] := by decide
example :
    (ContextData.shutdown true (ContextData.fresh true)).2.2 =
      [ReleaseAction.undeclareSubscriber, ReleaseAction.dropShm,
        ReleaseAction.closeSession] := by decide
example :
    (ContextData.shutdown false (ContextData.fresh true)).2.1.is_shutdown = false := by decide

/-! ## Helper lemmas -/

/-- An empty attachment never yields a lookup result. -/
theorem get_attachment_nil (key : String) : get_attachment [] key = none := rfl

/-- On a nonempty attachment, `get_attachment` is the scan loop. -/
theorem get_attachment_cons (a : String × Bytes) (l : List (String × Bytes)) (key : String) :
    get_attachment (a :: l) key = attachment_scan (a :: l) key := rfl

/-- The scan returns the first occurrence of the key, independent of what
follows it. -/
theorem attachment_scan_first (front back : List (String × Bytes)) (key : String) (v : Bytes)
    (hfront : ∀ p ∈ front, p.1 ≠ key) :
    attachment_scan (front ++ (key, v) :: back) key = some v := by
  induction front with
  | nil => simp [attachment_scan]
  | cons a l ih =>
    obtain ⟨k, w⟩ := a
    have hk : k ≠ key := hfront (k, w) (List.mem_cons_self _ _)
    simpa [attachment_scan, hk] using ih (fun p hp => hfront p (List.mem_cons_of_mem _ hp))

/-- A successful lookup reduces `get_int64_from_attachment` to the parse body. -/
theorem get_int64_eq_body (att : List (String × Bytes)) (name : String) (v : Bytes)
    (h : get_attachment att name = some v) :
    get_int64_from_attachment att name = int64Body v := by
  cases att with
  | nil => simp [get_attachment] at h
  | cons a l => simp [get_int64_from_attachment, h]

/-- A failed lookup yields the sentinel. -/
theorem get_int64_of_none (att : List (String × Bytes)) (name : String)
    (h : get_attachment att name = none) :
    get_int64_from_attachment att name = -1 := by
  cases att with
  | nil => rfl
  | cons a l => simp [get_int64_from_attachment, h]

/-- A zero `strtol` result makes the parse body return the sentinel. -/
theorem int64Body_of_num_zero (v : Bytes) (h : (strtol10 (cstrBytes v)).num = 0) :
    int64Body v = -1 := by
  unfold int64Body
  split
  · rfl
  · split
    · rfl
    · simp [h]

/-- A value of length 0 or more than 19 makes the parse body return the
sentinel, regardless of its content. -/
theorem int64Body_of_bad_length (v : Bytes) (h : v.length = 0 ∨ v.length > 19) :
    int64Body v = -1 := by
  unfold int64Body
  rcases h with h | h
  · rw [if_pos (by omega)]
  · rw [if_neg (by omega), if_pos h]

/-- Every byte `natDecAuxF` emits is an ASCII digit or came from `acc`. -/
theorem natDecAuxF_mem (fuel : Nat) :
    ∀ (n : Nat) (acc : List Nat) (c : Nat),
      c ∈ natDecAuxF fuel n acc → c ∈ acc ∨ (48 ≤ c ∧ c ≤ 57) := by
  induction fuel with
  | zero => intro n acc c h; exact Or.inl h
  | succ f ih =>
    intro n acc c h
    simp only [natDecAuxF] at h
    by_cases hn : n = 0
    · rw [if_pos hn] at h
      exact Or.inl h
    · rw [if_neg hn] at h
      rcases ih (n / 10) _ c h with hmem | hdig
      · rcases List.mem_cons.mp hmem with hc | hc
        · have hm : n % 10 < 10 := Nat.mod_lt n (by omega)
          right
          omega
        · exact Or.inl hc
      · exact Or.inr hdig

/-- `natDecAuxF` never shortens the accumulator. -/
theorem natDecAuxF_length (fuel : Nat) :
    ∀ (n : Nat) (acc : List Nat), acc.length ≤ (natDecAuxF fuel n acc).length := by
  induction fuel with
  | zero => intro n acc; exact le_refl _
  | succ f ih =>
    intro n acc
    simp only [natDecAuxF]
    by_cases hn : n = 0
    · rw [if_pos hn]
    · rw [if_neg hn]
      calc acc.length ≤ ((n % 10 + 48) :: acc).length := by simp
        _ ≤ _ := ih (n / 10) _

/-- Folding the digit-accumulation step over the digits `natDecAuxF` emits
recovers `n`, shifted past any prior accumulator value. -/
theorem natDecAuxF_foldl (fuel : Nat) :
    ∀ (n : Nat) (acc : List Nat) (v : Nat), n ≤ fuel →
      (natDecAuxF fuel n acc).foldl (fun a c => a * 10 + (c - 48)) v
        = acc.foldl (fun a c => a * 10 + (c - 48)) (v * tenPowF fuel n + n) := by
  induction fuel with
  | zero =>
    intro n acc v hn
    have h0 : n = 0 := Nat.le_zero.mp hn
    subst h0
    simp [natDecAuxF, tenPowF]
  | succ f ih =>
    intro n acc v hn
    by_cases h0 : n = 0
    · subst h0
      simp [natDecAuxF, tenPowF]
    · have hdiv : n / 10 ≤ f := by
        have hlt : n / 10 < n := Nat.div_lt_self (Nat.pos_of_ne_zero h0) (by omega)
        omega
      simp only [natDecAuxF, tenPowF]
      rw [if_neg h0, if_neg h0]
      rw [ih (n / 10) _ v hdiv]
      simp only [List.foldl_cons]
      have hstep : (v * tenPowF f (n / 10) + n / 10) * 10 + (n % 10 + 48 - 48)
          = v * (10 * tenPowF f (n / 10)) + (n / 10 * 10 + n % 10) := by
        have hsub : n % 10 + 48 - 48 = n % 10 := by omega
        rw [hsub]
        ring
      rw [hstep]
      congr 1
      omega

/-- Reading back the canonical digits of `n` yields `n`. -/
theorem digitsVal_natDecText (n : Nat) : digitsVal (natDecText n) = n := by
  by_cases h0 : n = 0
  · subst h0
    decide
  · unfold natDecText digitsVal
    rw [if_neg h0]
    rw [natDecAuxF_foldl n n [] 0 (le_refl n)]
    simp

/-- Canonical digits are ASCII digits. -/
theorem natDecText_digits (n : Nat) : ∀ c ∈ natDecText n, 48 ≤ c ∧ c ≤ 57 := by
  intro c hc
  by_cases h0 : n = 0
  · subst h0
    simp [natDecText] at hc
    omega
  · unfold natDecText at hc
    rw [if_neg h0] at hc
    rcases natDecAuxF_mem n n [] c hc with h | h
    · simp at h
    · exact h

/-- Canonical digit text is never empty. -/
theorem natDecText_ne_nil (n : Nat) : natDecText n ≠ [] := by
  by_cases h0 : n = 0
  · subst h0
    simp [natDecText]
  · unfold natDecText
    rw [if_neg h0]
    obtain ⟨m, rfl⟩ := Nat.exists_eq_succ_of_ne_zero h0
    have h1 : natDecAuxF (m + 1) (m + 1) [] = natDecAuxF m ((m + 1) / 10) [(m + 1) % 10 + 48] := by
      simp [natDecAuxF]
    rw [h1]
    have h2 := natDecAuxF_length m ((m + 1) / 10) [(m + 1) % 10 + 48]
    intro hcon
    rw [hcon] at h2
    simp at h2

/-- Canonical signed decimal text is never empty. -/
theorem intDecText_ne_nil (n : Int) : intDecText n ≠ [] := by
  unfold intDecText
  by_cases hn : n < 0
  · rw [if_pos hn]
    simp
  · rw [if_neg hn]
    exact natDecText_ne_nil _

/-- Canonical decimal text contains no NUL byte, so the C string `strtol`
sees is the whole value. -/
theorem cstrBytes_intDecText (n : Int) : cstrBytes (intDecText n) = intDecText n := by
  unfold cstrBytes
  apply List.takeWhile_eq_self_iff.mpr
  intro c hc
  unfold intDecText at hc
  by_cases hn : n < 0
  · rw [if_pos hn] at hc
    rcases List.mem_cons.mp hc with h | h
    · subst h
      simp
    · have := natDecText_digits n.natAbs c h
      simp
      omega
  · rw [if_neg hn] at hc
    have := natDecText_digits n.natAbs c hc
    simp
    omega

/-- `strtol` on a nonempty all-digit string: no whitespace, no sign, all
digits consumed, value `digitsVal s`, no `ERANGE` when within `INT64_MAX`. -/
theorem strtol10_digits (s : List Nat) (hne : s ≠ [])
    (hdig : ∀ c ∈ s, 48 ≤ c ∧ c ≤ 57) (hle : (digitsVal s : Int) ≤ INT64_MAX) :
    strtol10 s = ⟨(digitsVal s : Int), s.length, false⟩ := by
  obtain ⟨c, t, rfl⟩ := List.exists_cons_of_ne_nil hne
  have hc := hdig c (by simp)
  have hspace : isSpaceByte c = false := by
    simp [isSpaceByte]
    omega
  have h45 : c ≠ 45 := by omega
  have h43 : c ≠ 43 := by omega
  have halldig : List.takeWhile isDigitByte (c :: t) = c :: t := by
    apply List.takeWhile_eq_self_iff.mpr
    intro x hx
    have := hdig x hx
    simp [isDigitByte]
    omega
  have hnonneg : (0 : Int) ≤ (digitsVal (c :: t) : Int) := Int.natCast_nonneg _
  have hminlt : INT64_MIN < 0 := by decide
  have hmax : ¬ ((digitsVal (c :: t) : Int) > INT64_MAX) := not_lt.mpr hle
  have hmin : ¬ ((digitsVal (c :: t) : Int) < INT64_MIN) := by omega
  unfold strtol10
  simp [hspace, h45, h43, halldig, hmax, hmin]

/-- `strtol` on a minus sign followed by a nonempty all-digit string. -/
theorem strtol10_neg_digits (s : List Nat) (hne : s ≠ [])
    (hdig : ∀ c ∈ s, 48 ≤ c ∧ c ≤ 57) (hge : INT64_MIN ≤ -(digitsVal s : Int)) :
    strtol10 (45 :: s) = ⟨-(digitsVal s : Int), s.length + 1, false⟩ := by
  have hspace : isSpaceByte 45 = false := by decide
  have halldig : List.takeWhile isDigitByte s = s := by
    apply List.takeWhile_eq_self_iff.mpr
    intro x hx
    have := hdig x hx
    simp [isDigitByte]
    omega
  have hnonneg : (0 : Int) ≤ (digitsVal s : Int) := Int.natCast_nonneg _
  have hmaxpos : 0 < INT64_MAX := by decide
  have hsne : s.isEmpty = false := by
    cases s with
    | nil => exact absurd rfl hne
    | cons a l => rfl
  have hmax : ¬ (-(digitsVal s : Int) > INT64_MAX) := by omega
  have hmin : ¬ (-(digitsVal s : Int) < INT64_MIN) := not_lt.mpr hge
  unfold strtol10
  simp [hspace, halldig, hsne, hmax, hmin, Nat.add_comm]

/-- `strtol` round-trips the canonical decimal text of any in-range signed
64-bit integer, consuming the whole string with no error. -/
theorem strtol10_intDecText (n : Int) (h1 : INT64_MIN ≤ n) (h2 : n ≤ INT64_MAX) :
    strtol10 (intDecText n) = ⟨n, (intDecText n).length, false⟩ := by
  by_cases hn : n < 0
  · have hval : (digitsVal (natDecText n.natAbs) : Int) = -n := by
      rw [digitsVal_natDecText]
      omega
    unfold intDecText
    rw [if_pos hn]
    rw [strtol10_neg_digits _ (natDecText_ne_nil _) (natDecText_digits _) (by rw [hval]; omega)]
    rw [hval]
    simp
  · have hval : (digitsVal (natDecText n.natAbs) : Int) = n := by
      rw [digitsVal_natDecText]
      omega
    unfold intDecText
    rw [if_neg hn]
    rw [strtol10_digits _ (natDecText_ne_nil _) (natDecText_digits _) (by rw [hval]; exact h2)]
    rw [hval]

/-- The parse body maps canonical decimal text of a nonzero in-range integer
of at most 19 characters back to that integer. -/
theorem int64Body_intDecText (n : Int) (h1 : INT64_MIN ≤ n) (h2 : n ≤ INT64_MAX)
    (hn0 : n ≠ 0) (hlen : (intDecText n).length ≤ 19) :
    int64Body (intDecText n) = n := by
  have hpos : 0 < (intDecText n).length := List.length_pos.mpr (intDecText_ne_nil n)
  unfold int64Body
  rw [cstrBytes_intDecText, strtol10_intDecText n h1 h2]
  rw [if_neg (by omega), if_neg (by omega)]
  simp only []
  rw [if_neg hn0, if_neg (by omega), if_neg (by omega)]
  simp

/-! ## Claim theorems -/

/-- C1: whenever the value found under the looked-up key parses (via the
embedded `strtol`) to the literal integer 0, `get_int64_from_attachment`
returns the sentinel `-1`, exactly as it does when the key is absent. -/
theorem C1_zero_value_is_sentinel (att : List (String × Bytes)) (name : String) :
    (∀ v, get_attachment att name = some v → (strtol10 (cstrBytes v)).num = 0 →
      get_int64_from_attachment att name = -1) ∧
    (get_attachment att name = none → get_int64_from_attachment att name = -1) := by
  constructor
  · intro v hv hnum
    rw [get_int64_eq_body att name v hv]
    exact int64Body_of_num_zero v hnum
  · exact get_int64_of_none att name

/-- C1 witness: the attachment `[("k", "0")]` hits the zero quirk. -/
theorem C1_zero_value_is_sentinel_wit :
    get_int64_from_attachment [("k", [48])] "k" = -1 :=
  (C1_zero_value_is_sentinel [("k", [48])] "k").1 [48] (by decide) (by decide)

/-- C2: with duplicate keys, `get_attachment` returns the value of the first
occurrence in producer order, and the result does not depend on the pairs
after that first match (they are never inspected). -/
theorem C2_first_match_wins (front back : List (String × Bytes)) (key : String) (v : Bytes)
    (hfront : ∀ p ∈ front, p.1 ≠ key) :
    get_attachment (front ++ (key, v) :: back) key = some v ∧
    ∀ back2, get_attachment (front ++ (key, v) :: back) key =
      get_attachment (front ++ (key, v) :: back2) key := by
  have hfirst : ∀ b : List (String × Bytes),
      get_attachment (front ++ (key, v) :: b) key = some v := by
    intro b
    have hne : front ++ (key, v) :: b ≠ [] := by simp
    have heq : get_attachment (front ++ (key, v) :: b) key
        = attachment_scan (front ++ (key, v) :: b) key := by
      cases hf : front ++ (key, v) :: b with
      | nil => exact absurd hf hne
      | cons a l => rfl
    rw [heq]
    exact attachment_scan_first front b key v hfront
  exact ⟨hfirst back, fun back2 => (hfirst back).trans (hfirst back2).symm⟩

/-- C2 witness: duplicate key `"k"`; the first value `[2]` wins over `[3]`. -/
theorem C2_first_match_wins_wit :
    get_attachment [("a", [1]), ("k", [2]), ("k", [3])] "k" = some [2] :=
  (C2_first_match_wins [("a", [1])] [("k", [3])] "k" [2] (by decide)).1

/-- C3: `get_gid_from_attachment` succeeds with bytes `g` iff the lookup for
`"source_gid"` finds exactly `g` and `g` is exactly 16 bytes long; any other
length fails even though the key is present. -/
theorem C3_extract_gid_iff (att : List (String × Bytes)) (g : Bytes) :
    get_gid_from_attachment att = some g ↔
      get_attachment att "source_gid" = some g ∧ g.length = RMW_GID_STORAGE_SIZE := by
  unfold get_gid_from_attachment
  cases h : get_attachment att "source_gid" with
  | none => simp
  | some v =>
    by_cases hl : v.length = RMW_GID_STORAGE_SIZE
    · simp only [hl, if_pos rfl]
      constructor
      · intro hv
        cases hv
        exact ⟨rfl, hl⟩
      · intro ⟨hv, _⟩
        exact hv
    · simp only [if_neg hl]
      constructor
      · intro hv
        cases hv
      · intro ⟨hv, hg⟩
        cases hv
        exact absurd hg hl

/-- C3 witness: a present key with a 16-byte value succeeds with those bytes. -/
theorem C3_extract_gid_iff_wit :
    get_gid_from_attachment [("source_gid", List.replicate 16 171)] =
      some (List.replicate 16 171) :=
  (C3_extract_gid_iff [("source_gid", List.replicate 16 171)]
    (List.replicate 16 171)).2 ⟨by decide, by decide⟩

/-- C5: after a `shutdown` call that returned success, a second `shutdown`
returns success and performs no release action, and destructing the
already-shut-down context performs no release action either. -/
theorem C5_shutdown_idempotent (closeOk1 closeOk2 : Bool) (d d1 : ContextData)
    (e1 : List ReleaseAction)
    (h : ContextData.shutdown closeOk1 d = (RmwRet.Ok, d1, e1)) :
    ContextData.shutdown closeOk2 d1 = (RmwRet.Ok, d1, []) ∧
    ContextData.destructor closeOk2 d1 = (d1, []) := by
  have hsd : d1.is_shutdown = true := by
    have h1 := congrArg (fun t : RmwRet × ContextData × List ReleaseAction => t.1) h
    have h2 := congrArg (fun t : RmwRet × ContextData × List ReleaseAction => t.2.1.is_shutdown) h
    by_cases hd : d.is_shutdown
    · simp only [ContextData.shutdown, hd, if_pos rfl] at h2
      exact h2 ▸ hd
    · cases closeOk1 with
      | false =>
        simp only [ContextData.shutdown, hd, if_neg, Bool.false_eq_true,
          if_false, reduceCtorEq] at h1
      | true =>
        simp only [ContextData.shutdown, hd, Bool.false_eq_true, if_false, if_true] at h2
        exact h2 ▸ rfl
  constructor
  · simp [ContextData.shutdown, hsd]
  · simp [ContextData.destructor, ContextData.shutdown, hsd]

/-- C5 witness: shut down a fresh context with SHM, then shut down and
destruct the resulting state; both are success no-ops. -/
theorem C5_shutdown_idempotent_wit :
    ContextData.shutdown true
        { is_shutdown := true, is_initialized := false, subscriber_declared := false,
          shm_has_value := false, graph_cache := [], guard_triggers := 0,
          next_entity_id := 0 } =
      (RmwRet.Ok,
        { is_shutdown := true, is_initialized := false, subscriber_declared := false,
          shm_has_value := false, graph_cache := [], guard_triggers := 0,
          next_entity_id := 0 }, []) ∧
    ContextData.destructor true
        { is_shutdown := true, is_initialized := false, subscriber_declared := false,
          shm_has_value := false, graph_cache := [], guard_triggers := 0,
          next_entity_id := 0 } =
      ({ is_shutdown := true, is_initialized := false, subscriber_declared := false,
          shm_has_value := false, graph_cache := [], guard_triggers := 0,
          next_entity_id := 0 }, []) :=
  C5_shutdown_idempotent true true (ContextData.fresh true) _
    [ReleaseAction.undeclareSubscriber, ReleaseAction.dropShm, ReleaseAction.closeSession]
    (by decide)

/-- C6: if the session close fails during the first `shutdown`, the call
reports an error and `is_shutdown` stays false, even though the subscription
was already undeclared and the SHM allocator (when present) already dropped. -/
theorem C6_close_failure_partial_shutdown (d : ContextData) (h : d.is_shutdown = false) :
    (ContextData.shutdown false d).1 = RmwRet.Error ∧
    (ContextData.shutdown false d).2.1.is_shutdown = false ∧
    ReleaseAction.undeclareSubscriber ∈ (ContextData.shutdown false d).2.2 ∧
    (d.shm_has_value = true → ReleaseAction.dropShm ∈ (ContextData.shutdown false d).2.2) := by
  refine ⟨?_, ?_, ?_, ?_⟩ <;>
    simp [ContextData.shutdown, h]

/-- C6 witness: close failure on a fresh context with SHM enabled. -/
theorem C6_close_failure_partial_shutdown_wit :
    (ContextData.shutdown false (ContextData.fresh true)).1 = RmwRet.Error ∧
    (ContextData.shutdown false (ContextData.fresh true)).2.1.is_shutdown = false ∧
    ReleaseAction.undeclareSubscriber ∈ (ContextData.shutdown false (ContextData.fresh true)).2.2 ∧
    ReleaseAction.dropShm ∈ (ContextData.shutdown false (ContextData.fresh true)).2.2 := by
  have h := C6_close_failure_partial_shutdown (ContextData.fresh true) (by decide)
  exact ⟨h.1, h.2.1, h.2.2.1, h.2.2.2 (by decide)⟩

/-- C7: a discovery callback that observes `is_shutdown = true` returns
immediately: the state is unchanged and neither `parse_put`, `parse_del` nor
the guard-condition trigger is called. -/
theorem C7_handler_noop_after_shutdown (keyexpr : String) (kind : SampleKind)
    (d : ContextData) (triggerOk : Bool) (h : d.is_shutdown = true) :
    graph_sub_data_handler keyexpr kind (some d) triggerOk = (some d, []) := by
  simp [graph_sub_data_handler, h]

/-- C7 witness: a put sample arriving after shutdown is a no-op. -/
theorem C7_handler_noop_after_shutdown_wit :
    graph_sub_data_handler "dds/topic" SampleKind.put
        (some { is_shutdown := true, is_initialized := true, subscriber_declared := false,
                shm_has_value := false, graph_cache := [], guard_triggers := 0,
                next_entity_id := 3 }) true =
      (some { is_shutdown := true, is_initialized := true, subscriber_declared := false,
              shm_has_value := false, graph_cache := [], guard_triggers := 0,
              next_entity_id := 3 }, []) :=
  C7_handler_noop_after_shutdown "dds/topic" SampleKind.put _ true (by decide)

/-- C8: the router probe succeeds iff at least one identity reply was
delivered, and the counter the callback accumulates equals the number of
callback invocations (one per reply). -/
theorem C8_router_check_iff (replies : List (List Nat)) :
    (zenoh_router_check replies = RmwRet.Ok ↔ 1 ≤ replies.length) ∧
    routerCheckCount replies = replies.length := by
  have hc : routerCheckCount replies = replies.length := by
    have haux : ∀ (l : List (List Nat)) (n : Nat), l.foldl (fun c _ => c + 1) n = n + l.length := by
      intro l
      induction l with
      | nil => simp
      | cons a t ih =>
        intro n
        simp only [List.foldl_cons, ih, List.length_cons]
        omega
    simpa [routerCheckCount] using haux replies 0
  refine ⟨?_, hc⟩
  unfold zenoh_router_check
  rw [hc]
  cases replies <;> simp

/-- C8 witness: two replies give success and a count of 2. -/
theorem C8_router_check_iff_wit :
    zenoh_router_check [[1], [2]] = RmwRet.Ok ∧ routerCheckCount [[1], [2]] = 2 := by
  have h := C8_router_check_iff [[1], [2]]
  exact ⟨h.1.mpr (by decide), h.2⟩

/-- C10: `subscribe_to_ros_graph` on an already-initialized context returns
success immediately, declares nothing, and leaves the state unchanged. -/
theorem C10_subscribe_idempotent (declareOk : Bool) (d : ContextData)
    (h : d.is_initialized = true) :
    ContextData.subscribe_to_ros_graph declareOk d = (RmwRet.Ok, d, []) := by
  simp [ContextData.subscribe_to_ros_graph, h]

/-- C10 witness: re-subscribing an initialized context is a no-op. -/
theorem C10_subscribe_idempotent_wit :
    ContextData.subscribe_to_ros_graph false
        { is_shutdown := false, is_initialized := true, subscriber_declared := true,
          shm_has_value := false, graph_cache := [], guard_triggers := 1,
          next_entity_id := 7 } =
      (RmwRet.Ok,
        { is_shutdown := false, is_initialized := true, subscriber_declared := true,
          shm_has_value := false, graph_cache := [], guard_triggers := 1,
          next_entity_id := 7 }, []) :=
  C10_subscribe_idempotent false _ (by decide)

/-- C4: `get_int64_from_attachment` round-trips the canonical decimal text of
every nonzero signed 64-bit integer of at most 19 characters found under the
looked-up key; the literal `0` yields the sentinel `-1`; and a value of length
0 or more than 19 yields the sentinel regardless of content. -/
theorem C4_int64_roundtrip (att : List (String × Bytes)) (name : String) (n : Int)
    (hmin : INT64_MIN ≤ n) (hmax : n ≤ INT64_MAX) :
    (get_attachment att name = some (intDecText n) → n ≠ 0 → (intDecText n).length ≤ 19 →
      get_int64_from_attachment att name = n) ∧
    (get_attachment att name = some (intDecText 0) →
      get_int64_from_attachment att name = -1) ∧
    (∀ v, get_attachment att name = some v → (v.length = 0 ∨ v.length > 19) →
      get_int64_from_attachment att name = -1) := by
  refine ⟨?_, ?_, ?_⟩
  · intro hv hn0 hlen
    rw [get_int64_eq_body att name _ hv]
    exact int64Body_intDecText n hmin hmax hn0 hlen
  · intro hv
    rw [get_int64_eq_body att name _ hv]
    decide
  · intro v hv hbad
    rw [get_int64_eq_body att name v hv]
    exact int64Body_of_bad_length v hbad

/-- C4 witness: the text "120" under key "seq" round-trips to 120; "0" gives
the sentinel; a 20-character value gives the sentinel. -/
theorem C4_int64_roundtrip_wit :
    get_int64_from_attachment [("seq", intDecText 120)] "seq" = 120 ∧
    get_int64_from_attachment [("seq", intDecText 0)] "seq" = -1 ∧
    get_int64_from_attachment [("seq", List.replicate 20 49)] "seq" = -1 := by
  refine ⟨?_, ?_, ?_⟩
  · exact (C4_int64_roundtrip [("seq", intDecText 120)] "seq" 120 (by decide) (by decide)).1
      (by decide) (by decide) (by decide)
  · exact (C4_int64_roundtrip [("seq", intDecText 0)] "seq" 1 (by decide) (by decide)).2.1
      (by decide)
  · exact (C4_int64_roundtrip [("seq", List.replicate 20 49)] "seq" 1 (by decide)
      (by decide)).2.2 (List.replicate 20 49) (by decide) (by decide)

/-- The `len` loop computes `i` plus the length of the identity after
stripping trailing zero bytes (or leaves `len` untouched when everything
remaining is zero). -/
theorem zidLenAux_spec (id : List Nat) : ∀ (i len : Nat), len ≤ i →
    zidLenAux id i len =
      if (id.reverse.dropWhile (fun b => b = 0)).length = 0 then len
      else i + (id.reverse.dropWhile (fun b => b = 0)).length := by
  induction id with
  | nil =>
    intro i len h
    simp [zidLenAux]
  | cons b rest ih =>
    intro i len h
    have hrec : zidLenAux (b :: rest) i len
        = zidLenAux rest (i + 1) (if b ≠ 0 then i + 1 else len) := rfl
    rw [hrec, List.reverse_cons, List.dropWhile_append]
    by_cases hb : b = 0
    · rw [if_neg (by simpa using hb)]
      rw [ih (i + 1) len (by omega)]
      subst hb
      by_cases he : (rest.reverse.dropWhile (fun x => x = 0)).isEmpty = true
      · rw [if_pos he]
        have hKr : (rest.reverse.dropWhile (fun x => x = 0)).length = 0 := by
          rw [List.length_eq_zero]
          exact List.isEmpty_iff.mp he
        have h0 : (([0] : List Nat).dropWhile (fun x => x = 0)) = [] := rfl
        rw [h0]
        simp [hKr]
      · rw [if_neg he]
        have hKr : (rest.reverse.dropWhile (fun x => x = 0)).length ≠ 0 := by
          intro hcon
          exact he (List.isEmpty_iff.mpr (List.length_eq_zero.mp hcon))
        simp [hKr]
        omega
    · rw [if_pos (by simpa using hb)]
      rw [ih (i + 1) (i + 1) (le_refl _)]
      by_cases he : (rest.reverse.dropWhile (fun x => x = 0)).isEmpty = true
      · rw [if_pos he]
        have hKr : (rest.reverse.dropWhile (fun x => x = 0)).length = 0 := by
          rw [List.length_eq_zero]
          exact List.isEmpty_iff.mp he
        have h1 : (([b] : List Nat).dropWhile (fun x => x = 0)) = [b] := by
          rw [List.dropWhile_cons]
          simp [hb]
        rw [h1]
        simp [hKr]
      · rw [if_neg he]
        have hKr : (rest.reverse.dropWhile (fun x => x = 0)).length ≠ 0 := by
          intro hcon
          exact he (List.isEmpty_iff.mpr (List.length_eq_zero.mp hcon))
        simp [hKr]
        omega

/-- `zidLen` equals the length of the identity with trailing zeros stripped. -/
theorem zidLen_spec (id : List Nat) :
    zidLen id = (id.reverse.dropWhile (fun b => b = 0)).length := by
  unfold zidLen
  rw [zidLenAux_spec id 0 0 (le_refl _)]
  by_cases h : (id.reverse.dropWhile (fun b => b = 0)).length = 0
  · rw [if_pos h, h]
  · rw [if_neg h]
    omega

/-- Reading indices `K - 1, …, 0` out of `l` is the reverse of its K-prefix. -/
theorem range_rev_map_getD (l : List Nat) : ∀ K, K ≤ l.length →
    ((List.range K).reverse).map (fun i => l.getD i 0) = (l.take K).reverse := by
  intro K
  induction K with
  | zero =>
    intro h
    simp
  | succ k ih =>
    intro h
    rw [List.range_succ, List.reverse_append]
    simp only [List.reverse_cons, List.reverse_nil, List.nil_append, List.cons_append,
      List.map_cons]
    rw [ih (by omega)]
    have hk : k < l.length := by omega
    have htake : l.take (k + 1) = l.take k ++ [l.getD k 0] := by
      rw [List.take_succ, List.getElem?_eq_getElem hk, List.getD_eq_getElem l 0 hk]
      rfl
    rw [htake, List.reverse_append]
    simp

/-- The prefix of `id` up to `zidLen` is exactly the reverse of the
trailing-zero-stripped reversed identity. -/
theorem take_zidLen (id : List Nat) :
    id.take (zidLen id) = (id.reverse.dropWhile (fun b => b = 0)).reverse := by
  have hsplit : id = (id.reverse.dropWhile (fun b => b = 0)).reverse
      ++ (id.reverse.takeWhile (fun b => b = 0)).reverse := by
    conv_lhs => rw [← List.reverse_reverse id]
    conv_lhs => rw [← List.takeWhile_append_dropWhile (p := fun b => b = 0) (l := id.reverse)]
    rw [List.reverse_append]
  rw [zidLen_spec]
  nth_rewrite 2 [hsplit]
  exact List.take_left' (List.length_reverse _)

/-- Each nibble renders to a lowercase hex digit character. -/
theorem byteHexDigit_range (n : Nat) (h : n < 16) :
    (48 ≤ byteHexDigit n ∧ byteHexDigit n ≤ 57) ∨
    (97 ≤ byteHexDigit n ∧ byteHexDigit n ≤ 102) := by
  unfold byteHexDigit
  by_cases h10 : n < 10
  · rw [if_pos h10]
    left
    omega
  · rw [if_neg h10]
    right
    omega

/-- C9: `ZidToStr` strips trailing zero bytes from the high (LSB-first) end,
renders the remaining bytes most-significant first as two lowercase hex
digits each (interior zeros kept), and renders an all-zero identity as the
empty string. -/
theorem C9_zid_to_str (id : List Nat) (_hlen16 : id.length = 16) :
    ZidToStr id = hexRender (id.reverse.dropWhile (fun b => b = 0)) ∧
    ((∀ b ∈ id, b = 0) → ZidToStr id = []) ∧
    (∀ b, b < 256 → (byteHex b).length = 2 ∧
      ∀ c ∈ byteHex b, (48 ≤ c ∧ c ≤ 57) ∨ (97 ≤ c ∧ c ≤ 102)) := by
  have hK : zidLen id = (id.reverse.dropWhile (fun b => b = 0)).length := zidLen_spec id
  have hKle : zidLen id ≤ id.length := by
    rw [hK]
    calc (id.reverse.dropWhile (fun b => b = 0)).length
        ≤ id.reverse.length := (List.dropWhile_sublist _).length_le
      _ = id.length := List.length_reverse id
  have hmain : ZidToStr id = hexRender (id.reverse.dropWhile (fun b => b = 0)) := by
    show (if zidLen id = 0 then []
      else hexRender (((List.range (zidLen id)).reverse).map (fun i => id.getD i 0)))
      = hexRender (id.reverse.dropWhile (fun b => b = 0))
    by_cases h0 : zidLen id = 0
    · rw [if_pos h0]
      have hnil : (id.reverse.dropWhile (fun b => b = 0)).length = 0 := by
        rw [← hK]
        exact h0
      rw [List.length_eq_zero.mp hnil]
      rfl
    · rw [if_neg h0]
      rw [range_rev_map_getD id (zidLen id) hKle, take_zidLen id, List.reverse_reverse]
  refine ⟨hmain, ?_, ?_⟩
  · intro hall
    rw [hmain]
    have hnil : id.reverse.dropWhile (fun b => b = 0) = [] := by
      apply List.dropWhile_eq_nil_iff.mpr
      intro x hx
      simp only [decide_eq_true_eq]
      exact hall x (List.mem_reverse.mp hx)
    rw [hnil]
    rfl
  · intro b hb
    refine ⟨rfl, ?_⟩
    intro c hc
    have h1 : b / 16 < 16 := by omega
    have h2 : b % 16 < 16 := by omega
    simp only [byteHex, List.mem_cons, List.not_mem_nil, or_false] at hc
    rcases hc with rfl | rfl
    · exact byteHexDigit_range _ h1
    · exact byteHexDigit_range _ h2

/-- C9 witness: an all-zero identity renders empty; the LSB-first identity
`[0, 2, 0, 0xff, 0, …]` renders as "ff000200". -/
theorem C9_zid_to_str_wit :
    ZidToStr (List.replicate 16 0) = [] ∧
    ZidToStr (0 :: 2 :: 0 :: 255 :: List.replicate 12 0) =
      [102, 102, 48, 48, 48, 50, 48, 48] := by
  have h1 := C9_zid_to_str (List.replicate 16 0) (by decide)
  have h2 := C9_zid_to_str (0 :: 2 :: 0 :: 255 :: List.replicate 12 0) (by decide)
  constructor
  · exact h1.2.1 (by decide)
  · rw [h2.1]
    decide

end RmwZenoh
